import Mathlib

/-!
Verification development for the SPDK RAID bdev module
(`module/bdev/raid/bdev_raid.c`).

The C code is shallowly embedded: each relevant C function is translated
into an executable Lean definition over explicit state records.  Machine
integers are modelled as `Nat` with explicit `% 2^w` where overflow can
occur (`uint8_t` arithmetic in `_raid_bdev_create`), errno values as `Int`,
and asynchronous callback chains as sequential composition returning the
final state together with the list of externally visible events.
-/

namespace SpdkRaid

/-- Completion status of a bdev request, from `enum spdk_bdev_io_status`.
Only the members used by the raid module model are included. -/
inductive IoStatus where
  | SUCCESS
  | FAILED
  | NOMEM
  | ABORTED
deriving DecidableEq, Repr

/-- Per-request state embedded in a raid I/O, from `struct raid_bdev_io`:
the `base_bdev_io_remaining`, `base_bdev_io_submitted` and
`base_bdev_io_status` fields, plus an event log `completions` recording
each front-end completion (`raid_bdev_io_complete`) with its status. -/
structure RaidBdevIo where
  base_bdev_io_remaining : Nat
  base_bdev_io_submitted : Nat
  base_bdev_io_status : IoStatus
  completions : List IoStatus
deriving DecidableEq, Repr

/-- Model of `raid_bdev_io_complete` (bdev_raid.c:330): completing the
front-end request is recorded in the event log. -/
def raid_bdev_io_complete (io : RaidBdevIo) (status : IoStatus) : RaidBdevIo :=
  { io with completions := io.completions ++ [status] }

/-- Model of `raid_bdev_io_complete_part` (bdev_raid.c:362): subtract
`completed` from the remaining counter, record a non-SUCCESS status, and
complete the front-end request when the counter reaches zero.  Returns the
updated io together with the C function's boolean result. -/
def raid_bdev_io_complete_part (io : RaidBdevIo) (completed : Nat) (status : IoStatus) :
    RaidBdevIo × Bool :=
  let io1 := { io with base_bdev_io_remaining := io.base_bdev_io_remaining - completed }
  let io2 := if status ≠ IoStatus.SUCCESS
             then { io1 with base_bdev_io_status := status }
             else io1
  if io2.base_bdev_io_remaining = 0 then
    (raid_bdev_io_complete io2 io2.base_bdev_io_status, true)
  else
    (io2, false)

/-- Model of the per-io-context fields set by `raid_bdev_io_init`
(bdev_raid.c:499): `remaining := 0`, `submitted := 0`, `status := SUCCESS`. -/
def raid_bdev_io_setup : RaidBdevIo :=
  { base_bdev_io_remaining := 0
    base_bdev_io_submitted := 0
    base_bdev_io_status := IoStatus.SUCCESS
    completions := [] }

/-- A front-end request whose fan-out has loaded the remaining counter with `R`. -/
def ioWithRemaining (R : Nat) : RaidBdevIo :=
  { raid_bdev_io_setup with base_bdev_io_remaining := R }

/-- Run a trace of sub-completions `(n, s)` through the aggregator. -/
def runParts (io : RaidBdevIo) (parts : List (Nat × IoStatus)) : RaidBdevIo :=
  parts.foldl (fun s p => (raid_bdev_io_complete_part s p.1 p.2).1) io

/-- Sum of the `n` arguments of a trace of sub-completions. -/
def partSum (parts : List (Nat × IoStatus)) : Nat :=
  (parts.map Prod.fst).sum

/-- Status roll-up performed by the aggregator over a trace, starting from `st`. -/
def rollup (st : IoStatus) (parts : List (Nat × IoStatus)) : IoStatus :=
  parts.foldl (fun s p => if p.2 ≠ IoStatus.SUCCESS then p.2 else s) st

/-- The status of the last failing sub-completion of a trace, if any. -/
def lastFailure (parts : List (Nat × IoStatus)) : Option IoStatus :=
  (parts.filter (fun p => p.2 ≠ IoStatus.SUCCESS)).getLast?.map Prod.snd

@[simp] theorem runParts_nil (io : RaidBdevIo) : runParts io [] = io := rfl

@[simp] theorem runParts_cons (io : RaidBdevIo) (p : Nat × IoStatus)
    (parts : List (Nat × IoStatus)) :
    runParts io (p :: parts) = runParts (raid_bdev_io_complete_part io p.1 p.2).1 parts := rfl

theorem runParts_append (io : RaidBdevIo) (l1 l2 : List (Nat × IoStatus)) :
    runParts io (l1 ++ l2) = runParts (runParts io l1) l2 := by
  simp [runParts, List.foldl_append]

@[simp] theorem partSum_nil : partSum [] = 0 := rfl

@[simp] theorem partSum_cons (p : Nat × IoStatus) (parts : List (Nat × IoStatus)) :
    partSum (p :: parts) = p.1 + partSum parts := by
  simp [partSum]

theorem partSum_append (l1 l2 : List (Nat × IoStatus)) :
    partSum (l1 ++ l2) = partSum l1 + partSum l2 := by
  simp [partSum]

/-- While every nonempty prefix of the trace sums to strictly less than the
remaining counter, the aggregator only subtracts and rolls up the status:
no front-end completion fires. -/
theorem runParts_no_completion (parts : List (Nat × IoStatus)) :
    ∀ io : RaidBdevIo,
      (∀ k, k < parts.length → partSum (parts.take (k + 1)) < io.base_bdev_io_remaining) →
      runParts io parts =
        { io with
          base_bdev_io_remaining := io.base_bdev_io_remaining - partSum parts
          base_bdev_io_status := rollup io.base_bdev_io_status parts } := by
  induction parts with
  | nil => intro io _; simp [rollup]
  | cons p rest ih =>
    intro io h
    have h0 : p.1 < io.base_bdev_io_remaining := by
      have := h 0 (by simp)
      simpa using this
    have hstep : (raid_bdev_io_complete_part io p.1 p.2).1 =
        { io with
          base_bdev_io_remaining := io.base_bdev_io_remaining - p.1
          base_bdev_io_status := if p.2 ≠ IoStatus.SUCCESS then p.2 else io.base_bdev_io_status } := by
      have hne : io.base_bdev_io_remaining - p.1 ≠ 0 := by omega
      by_cases hs : p.2 = IoStatus.SUCCESS <;>
        simp [raid_bdev_io_complete_part, hs, hne]
    have hrest : ∀ k, k < rest.length →
        partSum (rest.take (k + 1)) < io.base_bdev_io_remaining - p.1 := by
      intro k hk
      have := h (k + 1) (by simpa using Nat.succ_lt_succ hk)
      simp only [List.take_succ_cons, partSum_cons] at this
      omega
    rw [runParts_cons, hstep, ih _ hrest]
    simp only [partSum_cons, rollup]
    congr 1
    omega

theorem rollup_append_single (st : IoStatus) (l : List (Nat × IoStatus)) (p : Nat × IoStatus) :
    rollup st (l ++ [p]) = if p.2 ≠ IoStatus.SUCCESS then p.2 else rollup st l := by
  simp [rollup, List.foldl_append]

theorem lastFailure_append_single (l : List (Nat × IoStatus)) (p : Nat × IoStatus) :
    lastFailure (l ++ [p]) =
      if p.2 ≠ IoStatus.SUCCESS then some p.2 else lastFailure l := by
  by_cases hs : p.2 = IoStatus.SUCCESS
  · simp [lastFailure, List.filter_append, hs]
  · simp [lastFailure, List.filter_append, hs, List.getLast?_concat]

/-- The rolled-up status equals the last failing status of the trace, or the
initial status when no sub-completion failed. -/
theorem rollup_eq_lastFailure (parts : List (Nat × IoStatus)) :
    ∀ st : IoStatus, rollup st parts = (lastFailure parts).getD st := by
  induction parts using List.reverseRecOn with
  | nil => intro st; simp [rollup, lastFailure]
  | append_singleton l p ih =>
    intro st
    rw [rollup_append_single, lastFailure_append_single]
    by_cases hs : p.2 = IoStatus.SUCCESS <;> simp [hs, ih st]

/-- The rolled-up status is SUCCESS exactly when the initial status was
SUCCESS and every sub-completion reported SUCCESS. -/
theorem rollup_eq_success (parts : List (Nat × IoStatus)) :
    ∀ st : IoStatus,
      (rollup st parts = IoStatus.SUCCESS ↔
        (st = IoStatus.SUCCESS ∧ ∀ p ∈ parts, p.2 = IoStatus.SUCCESS)) := by
  induction parts using List.reverseRecOn with
  | nil => intro st; simp [rollup]
  | append_singleton l p ih =>
    intro st
    rw [rollup_append_single]
    by_cases hs : p.2 = IoStatus.SUCCESS
    · simp only [hs]
      constructor
      · intro h
        rcases (ih st).mp (by simpa [hs] using h) with ⟨h1, h2⟩
        refine ⟨h1, fun q hq => ?_⟩
        rcases List.mem_append.mp hq with h | h
        · exact h2 q h
        · rcases List.mem_singleton.mp h with rfl; exact hs
      · intro ⟨h1, h2⟩
        simp only [hs, ne_eq, not_true_eq_false, if_false]
        exact (ih st).mpr ⟨h1, fun q hq => h2 q (List.mem_append.mpr (Or.inl hq))⟩
    · simp only [ne_eq, hs, not_false_eq_true, if_true, false_iff, not_and]
      intro _ h2
      exact absurd (h2 p (List.mem_append.mpr (Or.inr (List.mem_singleton_self p)))) hs

theorem complete_part_remaining (io : RaidBdevIo) (n : Nat) (s : IoStatus) :
    (raid_bdev_io_complete_part io n s).1.base_bdev_io_remaining =
      io.base_bdev_io_remaining - n := by
  simp only [raid_bdev_io_complete_part, raid_bdev_io_complete]
  split <;> split <;> rfl

theorem complete_part_status (io : RaidBdevIo) (n : Nat) (s : IoStatus) :
    (raid_bdev_io_complete_part io n s).1.base_bdev_io_status =
      if s ≠ IoStatus.SUCCESS then s else io.base_bdev_io_status := by
  simp only [raid_bdev_io_complete_part, raid_bdev_io_complete]
  split <;> split <;> rfl

/-- The rolled-up status of a request is insensitive to completions: over any
trace it is exactly `rollup` of the statuses. -/
theorem runParts_status (parts : List (Nat × IoStatus)) :
    ∀ io : RaidBdevIo,
      (runParts io parts).base_bdev_io_status = rollup io.base_bdev_io_status parts := by
  induction parts with
  | nil => intro io; simp [rollup]
  | cons p rest ih =>
    intro io
    rw [runParts_cons, ih]
    by_cases hs : p.2 = IoStatus.SUCCESS <;>
      simp [rollup, complete_part_status, hs]

theorem lastFailure_ne_success (parts : List (Nat × IoStatus)) :
    ∀ s, lastFailure parts = some s → s ≠ IoStatus.SUCCESS := by
  induction parts using List.reverseRecOn with
  | nil => intro s h; simp [lastFailure] at h
  | append_singleton l p ih =>
    intro s h
    rw [lastFailure_append_single] at h
    by_cases hs : p.2 = IoStatus.SUCCESS
    · exact ih s (by simpa [hs] using h)
    · have : s = p.2 := by simpa [hs] using h.symm
      rw [this]; exact hs

theorem partSum_take_le (parts : List (Nat × IoStatus)) (k : Nat) :
    partSum (parts.take k) ≤ partSum parts := by
  conv_rhs => rw [← List.take_append_drop k parts]
  rw [partSum_append]
  omega

/-- Claim C1.  For a front-end request whose fan-out loaded the remaining
counter with `R` and which then receives a trace of sub-completions summing
to `R` (the running sum reaching `R` only at the final call): every call
finds `remaining` at least its `n` argument and decrements it by exactly
`n`; no front-end completion fires before the final call; the final call
completes the request exactly once, with the rolled-up status; and that
status is SUCCESS exactly when every sub-completion reported SUCCESS. -/
theorem aggregator_exactly_once
    (R : Nat) (parts : List (Nat × IoStatus))
    (hne : parts ≠ [])
    (hsum : partSum parts = R)
    (hpre : ∀ k : Fin parts.length, k.val + 1 < parts.length →
      partSum (parts.take (k.val + 1)) < R) :
    (∀ k : Fin parts.length,
      (parts.get k).1 ≤
        (runParts (ioWithRemaining R) (parts.take k.val)).base_bdev_io_remaining ∧
      (runParts (ioWithRemaining R) (parts.take (k.val + 1))).base_bdev_io_remaining =
        (runParts (ioWithRemaining R) (parts.take k.val)).base_bdev_io_remaining -
          (parts.get k).1) ∧
    (∀ k : Fin parts.length, k.val + 1 < parts.length →
      (runParts (ioWithRemaining R) (parts.take (k.val + 1))).completions = []) ∧
    (runParts (ioWithRemaining R) parts).completions = [rollup IoStatus.SUCCESS parts] ∧
    (rollup IoStatus.SUCCESS parts = IoStatus.SUCCESS ↔
      ∀ p ∈ parts, p.2 = IoStatus.SUCCESS) := by
  have hstate : ∀ k, k < parts.length →
      runParts (ioWithRemaining R) (parts.take k) =
        { ioWithRemaining R with
          base_bdev_io_remaining := R - partSum (parts.take k)
          base_bdev_io_status := rollup IoStatus.SUCCESS (parts.take k) } := by
    intro k hk
    have h := runParts_no_completion (parts.take k) (ioWithRemaining R) ?_
    · simpa [ioWithRemaining, raid_bdev_io_setup] using h
    · intro j hj
      have hj' : j < k ∧ j < parts.length := by simpa using hj
      have hjk : j < k := hj'.1
      have hj1 : j + 1 < parts.length := by omega
      have := hpre ⟨j, by omega⟩ hj1
      have htt : (parts.take k).take (j + 1) = parts.take (j + 1) := by
        rw [List.take_take]
        congr 1
        omega
      rw [htt]
      simpa [ioWithRemaining, raid_bdev_io_setup] using this
  have hsumk : ∀ k, k ≤ parts.length → partSum (parts.take (k + 1)) ≤ R := by
    intro k _
    calc partSum (parts.take (k + 1)) ≤ partSum parts := partSum_take_le parts (k + 1)
    _ = R := hsum
  have htake : ∀ k : Fin parts.length,
      parts.take (k.val + 1) = parts.take k.val ++ [parts.get k] := by
    intro k
    rw [List.take_succ]
    congr
    rw [List.getElem?_eq_getElem k.isLt]
    simp [List.get_eq_getElem]
  refine ⟨?_, ?_, ?_, by simpa using rollup_eq_success parts IoStatus.SUCCESS⟩
  · intro k
    have hk := k.isLt
    have hbefore := hstate k.val hk
    have hps : partSum (parts.take (k.val + 1)) =
        partSum (parts.take k.val) + (parts.get k).1 := by
      rw [htake k, partSum_append]
      simp [partSum]
    have hle : (parts.get k).1 ≤ R - partSum (parts.take k.val) := by
      have h1 : partSum (parts.take (k.val + 1)) ≤ R := hsumk k.val (Nat.le_of_lt hk)
      have h2 : partSum (parts.take k.val) ≤ R :=
        le_trans (partSum_take_le parts k.val) (le_of_eq hsum)
      omega
    constructor
    · rw [hbefore]; exact hle
    · rw [htake k, runParts_append, runParts_cons, runParts_nil, complete_part_remaining]
  · intro k hk1
    have := hstate (k.val + 1) hk1
    rw [this]
    simp [ioWithRemaining, raid_bdev_io_setup]
  · rcases List.eq_nil_or_concat parts with rfl | ⟨front, p, hfp⟩
    · exact absurd rfl hne
    · rw [List.concat_eq_append] at hfp
      subst hfp
      have hfront : runParts (ioWithRemaining R) front =
          { ioWithRemaining R with
            base_bdev_io_remaining := R - partSum front
            base_bdev_io_status := rollup IoStatus.SUCCESS front } := by
        have := hstate front.length (by simp)
        simpa [List.take_left] using this
      have hsum2 : partSum front + p.1 = R := by
        rw [partSum_append] at hsum
        simpa [partSum] using hsum
      rw [runParts_append, hfront, runParts_cons, runParts_nil]
      have hrem0 : R - partSum front - p.1 = 0 := by omega
      by_cases hs : p.2 = IoStatus.SUCCESS <;>
        simp [raid_bdev_io_complete_part, raid_bdev_io_complete, hs, hrem0,
              ioWithRemaining, raid_bdev_io_setup, rollup_append_single]

/-- Witness for C1: a two-part trace summing to the loaded counter completes
the request exactly once with the rolled-up (here FAILED) status. -/
theorem aggregator_exactly_once_witness :
    (runParts (ioWithRemaining 2) [(1, IoStatus.SUCCESS), (1, IoStatus.FAILED)]).completions =
      [rollup IoStatus.SUCCESS [(1, IoStatus.SUCCESS), (1, IoStatus.FAILED)]] :=
  (aggregator_exactly_once 2 [(1, IoStatus.SUCCESS), (1, IoStatus.FAILED)]
    (by decide) (by decide) (by decide)).2.2.1

/-- Counterexample to claim C6: two failing sub-completions with distinct
non-SUCCESS statuses (FAILED then ABORTED).  The code overwrites the
rolled-up status on every failure, so the request completes with the LAST
failing status ABORTED, not with the first failing status FAILED as the
claim states. -/
theorem aggregator_first_failure_cex :
    (runParts (ioWithRemaining 2) [(1, IoStatus.FAILED), (1, IoStatus.ABORTED)]).completions =
      [IoStatus.ABORTED] ∧ IoStatus.ABORTED ≠ IoStatus.FAILED := by
  decide

/-- Claim C6 amended.  The aggregated status a request finally carries is the
status of the LAST failing sub-completion (or SUCCESS when none failed), and
a SUCCESS sub-completion arriving after any failure never moves the
aggregated status back to SUCCESS. -/
theorem aggregator_last_failure_wins (R : Nat) (parts : List (Nat × IoStatus)) :
    (runParts (ioWithRemaining R) parts).base_bdev_io_status =
      (lastFailure parts).getD IoStatus.SUCCESS ∧
    (lastFailure parts ≠ none →
      (runParts (ioWithRemaining R) parts).base_bdev_io_status ≠ IoStatus.SUCCESS) := by
  have h1 : (runParts (ioWithRemaining R) parts).base_bdev_io_status =
      (lastFailure parts).getD IoStatus.SUCCESS := by
    rw [runParts_status]
    simpa [ioWithRemaining, raid_bdev_io_setup] using rollup_eq_lastFailure parts IoStatus.SUCCESS
  refine ⟨h1, fun hne => ?_⟩
  rcases hopt : lastFailure parts with _ | s
  · exact absurd hopt hne
  · rw [h1, hopt]
    exact lastFailure_ne_success parts s hopt

/-- Witness for the amended C6: SUCCESS after a FAILED leaves the final
status FAILED. -/
theorem aggregator_last_failure_wins_witness :
    (runParts (ioWithRemaining 2) [(1, IoStatus.FAILED), (1, IoStatus.SUCCESS)]).base_bdev_io_status =
      (lastFailure [(1, IoStatus.FAILED), (1, IoStatus.SUCCESS)]).getD IoStatus.SUCCESS :=
  (aggregator_last_failure_wins 2 [(1, IoStatus.FAILED), (1, IoStatus.SUCCESS)]).1

/-! ### Reset fan-out (`raid_bdev_submit_reset_request`) -/

/-- One base slot as seen by the reset submission loop: whether the
submitting channel's `base_channel[i]` is non-NULL, and the value
`spdk_bdev_reset` returns when submission is attempted on this slot. -/
structure ResetSlot where
  has_channel : Bool
  submit_ret : Int
deriving DecidableEq, Repr

/-- Outcome of one invocation of `raid_bdev_submit_reset_request`. -/
inductive ResetOutcome where
  | returned (io : RaidBdevIo)
  | queued (io : RaidBdevIo)
  | failedEarly (io : RaidBdevIo)
deriving DecidableEq, Repr

def ENOMEM : Int := 12

/-- The slot loop of `raid_bdev_submit_reset_request` (bdev_raid.c:452-471),
walking the slots from the saved `base_bdev_io_submitted` cursor upward.
A slot with no channel advances the cursor and aggregates one SUCCESS part;
a successful submission advances the cursor; `-ENOMEM` queues the request
on the wait queue and returns; any other errno completes the request FAILED
and returns. -/
def submit_reset_loop : List ResetSlot → RaidBdevIo → ResetOutcome
  | [], io => ResetOutcome.returned io
  | slot :: rest, io =>
    if slot.has_channel = false then
      let io1 := { io with base_bdev_io_submitted := io.base_bdev_io_submitted + 1 }
      submit_reset_loop rest (raid_bdev_io_complete_part io1 1 IoStatus.SUCCESS).1
    else if slot.submit_ret = 0 then
      submit_reset_loop rest { io with base_bdev_io_submitted := io.base_bdev_io_submitted + 1 }
    else if slot.submit_ret = -ENOMEM then
      ResetOutcome.queued io
    else
      ResetOutcome.failedEarly (raid_bdev_io_complete io IoStatus.FAILED)

/-- Model of `raid_bdev_submit_reset_request` (bdev_raid.c:435-473):
on first entry (`base_bdev_io_remaining == 0`) the remaining counter is
loaded with the number of base slots, then the loop processes slots from
the saved `base_bdev_io_submitted` cursor. -/
def raid_bdev_submit_reset_request (slots : List ResetSlot) (io : RaidBdevIo) : ResetOutcome :=
  let io1 := if io.base_bdev_io_remaining = 0
             then { io with base_bdev_io_remaining := slots.length }
             else io
  submit_reset_loop (slots.drop io1.base_bdev_io_submitted) io1

/-- Number of channel-less slots in a list. -/
def nullCount (l : List ResetSlot) : Nat :=
  l.countP (fun s => s.has_channel = false)

@[simp] theorem nullCount_nil : nullCount [] = 0 := rfl

theorem nullCount_cons (s : ResetSlot) (l : List ResetSlot) :
    nullCount (s :: l) = (if s.has_channel = false then 1 else 0) + nullCount l := by
  by_cases hs : s.has_channel = false
  · simp [nullCount, List.countP_cons, hs]
    omega
  · simp [nullCount, List.countP_cons, hs]

theorem nullCount_le_length (l : List ResetSlot) : nullCount l ≤ l.length :=
  List.countP_le_length _

/-- Processing a prefix of slots that are all channel-less or submit
successfully advances the cursor by the prefix length and decreases the
remaining counter by one per channel-less slot, leaving status and the
completion log untouched, provided enough parts remain. -/
theorem submit_reset_loop_ok_prefix (pre : List ResetSlot) :
    ∀ (rest : List ResetSlot) (io : RaidBdevIo),
      (∀ s ∈ pre, s.has_channel = false ∨ s.submit_ret = 0) →
      nullCount pre < io.base_bdev_io_remaining →
      submit_reset_loop (pre ++ rest) io =
        submit_reset_loop rest
          { io with
            base_bdev_io_submitted := io.base_bdev_io_submitted + pre.length
            base_bdev_io_remaining := io.base_bdev_io_remaining - nullCount pre } := by
  induction pre with
  | nil =>
    intro rest io _ _
    simp
  | cons s pre' ih =>
    intro rest io hok hcount
    have hok' : ∀ q ∈ pre', q.has_channel = false ∨ q.submit_ret = 0 :=
      fun q hq => hok q (List.mem_cons_of_mem _ hq)
    by_cases hnull : s.has_channel = false
    · have hc' : nullCount (s :: pre') = 1 + nullCount pre' := by
        rw [nullCount_cons, hnull]; simp
      have hcount' : nullCount pre' < io.base_bdev_io_remaining - 1 := by
        rw [hc'] at hcount; omega
      have hrem : io.base_bdev_io_remaining - 1 ≠ 0 := by omega
      have hstep : (raid_bdev_io_complete_part
          { io with base_bdev_io_submitted := io.base_bdev_io_submitted + 1 }
          1 IoStatus.SUCCESS).1 =
          { io with
            base_bdev_io_submitted := io.base_bdev_io_submitted + 1
            base_bdev_io_remaining := io.base_bdev_io_remaining - 1 } := by
        simp [raid_bdev_io_complete_part, hrem]
      rw [List.cons_append]
      simp only [submit_reset_loop]
      rw [if_pos hnull, hstep,
        ih rest
          { io with
            base_bdev_io_submitted := io.base_bdev_io_submitted + 1
            base_bdev_io_remaining := io.base_bdev_io_remaining - 1 }
          hok' hcount']
      congr 1
      simp only [RaidBdevIo.mk.injEq, List.length_cons, hc', and_true, true_and]
      omega
    · rcases hok s (List.mem_cons_self s pre') with h | hzero
      · exact absurd h hnull
      · have hc' : nullCount (s :: pre') = nullCount pre' := by
          rw [nullCount_cons]; simp [hnull]
        have hcount' : nullCount pre' < io.base_bdev_io_remaining := by
          rw [hc'] at hcount; exact hcount
        rw [List.cons_append]
        simp only [submit_reset_loop]
        rw [if_neg hnull, if_pos hzero,
          ih rest { io with base_bdev_io_submitted := io.base_bdev_io_submitted + 1 }
            hok' hcount']
        congr 1
        simp only [RaidBdevIo.mk.injEq, List.length_cons, hc', and_true, true_and]
        omega

/-- Claim C2.  For a fresh RESET front-end request (`remaining = 0`,
`submitted = 0`, status SUCCESS): (a) the remaining counter is initialized
to the number of base slots and slots are processed in order from the saved
submitted cursor; (b) when every slot has a null base channel each slot is
counted as one SUCCESS part and the request completes SUCCESS; (c) when the
first attempted submission at slot `k` returns -ENOMEM the request is left
on the wait queue with the submitted cursor still at `k`, and a later
re-invocation resumes the loop exactly at slot `k`; (d) when it returns any
other nonzero errno the request is completed FAILED immediately. -/
theorem submit_reset_request_spec (slots : List ResetSlot) :
    (∀ io : RaidBdevIo, io.base_bdev_io_remaining = 0 →
      raid_bdev_submit_reset_request slots io =
        submit_reset_loop (slots.drop io.base_bdev_io_submitted)
          { io with base_bdev_io_remaining := slots.length }) ∧
    (slots ≠ [] → (∀ s ∈ slots, s.has_channel = false) →
      raid_bdev_submit_reset_request slots raid_bdev_io_setup =
        ResetOutcome.returned
          { base_bdev_io_remaining := 0
            base_bdev_io_submitted := slots.length
            base_bdev_io_status := IoStatus.SUCCESS
            completions := [IoStatus.SUCCESS] }) ∧
    (∀ k : Fin slots.length,
      (∀ s ∈ slots.take k.val, s.has_channel = false ∨ s.submit_ret = 0) →
      (slots.get k).has_channel = true →
      (((slots.get k).submit_ret = -ENOMEM →
        ∃ io : RaidBdevIo,
          raid_bdev_submit_reset_request slots raid_bdev_io_setup =
            ResetOutcome.queued io ∧
          io.base_bdev_io_submitted = k.val ∧
          io.completions = [] ∧
          0 < io.base_bdev_io_remaining ∧
          raid_bdev_submit_reset_request slots io =
            submit_reset_loop (slots.drop k.val) io) ∧
      ((slots.get k).submit_ret ≠ 0 → (slots.get k).submit_ret ≠ -ENOMEM →
        ∃ io : RaidBdevIo,
          raid_bdev_submit_reset_request slots raid_bdev_io_setup =
            ResetOutcome.failedEarly io ∧
          io.completions = [IoStatus.FAILED]))) := by
  have hinit : ∀ io : RaidBdevIo, io.base_bdev_io_remaining = 0 →
      raid_bdev_submit_reset_request slots io =
        submit_reset_loop (slots.drop io.base_bdev_io_submitted)
          { io with base_bdev_io_remaining := slots.length } := by
    intro io hio
    simp [raid_bdev_submit_reset_request, hio]
  refine ⟨hinit, ?_, ?_⟩
  · intro hne hall
    rcases List.eq_nil_or_concat slots with rfl | ⟨front, last, hfl⟩
    · exact absurd rfl hne
    · rw [List.concat_eq_append] at hfl
      subst hfl
      rw [hinit raid_bdev_io_setup rfl]
      have hnf : nullCount front = front.length :=
        List.countP_eq_length.mpr (fun s hs => by
          simp [hall s (List.mem_append.mpr (Or.inl hs))])
      have hlast : last.has_channel = false :=
        hall last (List.mem_append.mpr (Or.inr (List.mem_singleton_self last)))
      have hpre := submit_reset_loop_ok_prefix front [last]
        { raid_bdev_io_setup with base_bdev_io_remaining := (front ++ [last]).length }
        (fun s hs => Or.inl (hall s (List.mem_append.mpr (Or.inl hs))))
        (by simp [raid_bdev_io_setup, hnf])
      rw [show List.drop raid_bdev_io_setup.base_bdev_io_submitted (front ++ [last]) =
            front ++ [last] from rfl]
      rw [hpre]
      have h1 : (front ++ [last]).length - nullCount front = 1 := by
        rw [hnf]
        simp only [List.length_append, List.length_singleton]
        omega
      simp only [submit_reset_loop, hlast, if_true, raid_bdev_io_setup]
      rw [h1]
      simp [raid_bdev_io_complete_part, raid_bdev_io_complete, List.length_append]
  · intro k hok hch
    have hsplit : slots = slots.take k.val ++ slots.get k :: slots.drop (k.val + 1) := by
      conv_lhs => rw [← List.take_append_drop k.val slots]
      congr 1
      rw [List.drop_eq_getElem_cons k.isLt]
      simp [List.get_eq_getElem]
    have hlen_take : (slots.take k.val).length = k.val := by
      have := k.isLt
      rw [List.length_take]
      omega
    have hcount : nullCount (slots.take k.val) <
        ({ raid_bdev_io_setup with base_bdev_io_remaining := slots.length } :
          RaidBdevIo).base_bdev_io_remaining := by
      have h1 : nullCount (slots.take k.val) ≤ k.val := by
        have := nullCount_le_length (slots.take k.val)
        omega
      have := k.isLt
      simp only [raid_bdev_io_setup]
      omega
    have hrun : raid_bdev_submit_reset_request slots raid_bdev_io_setup =
        submit_reset_loop (slots.get k :: slots.drop (k.val + 1))
          { base_bdev_io_remaining := slots.length - nullCount (slots.take k.val)
            base_bdev_io_submitted := k.val
            base_bdev_io_status := IoStatus.SUCCESS
            completions := [] } := by
      have hstep := submit_reset_loop_ok_prefix (slots.take k.val)
        (slots.get k :: slots.drop (k.val + 1))
        { raid_bdev_io_setup with base_bdev_io_remaining := slots.length } hok hcount
      rw [← hsplit] at hstep
      rw [hinit raid_bdev_io_setup rfl,
        show List.drop raid_bdev_io_setup.base_bdev_io_submitted slots = slots from rfl,
        hstep]
      congr 1
      simp [raid_bdev_io_setup, hlen_take]
    have hrem_pos : 0 < slots.length - nullCount (slots.take k.val) := by
      have h1 : nullCount (slots.take k.val) ≤ k.val := by
        have := nullCount_le_length (slots.take k.val)
        omega
      have := k.isLt
      omega
    constructor
    · intro hret
      refine ⟨{ base_bdev_io_remaining := slots.length - nullCount (slots.take k.val)
                base_bdev_io_submitted := k.val
                base_bdev_io_status := IoStatus.SUCCESS
                completions := [] }, ?_, rfl, rfl, hrem_pos, ?_⟩
      · rw [hrun]
        simp only [submit_reset_loop]
        rw [if_neg (by simp only [hch]; decide), if_neg (by rw [hret]; decide), if_pos hret]
      · simp only [raid_bdev_submit_reset_request]
        rw [if_neg (show ¬(slots.length - nullCount (slots.take k.val) = 0) from by omega)]
    · intro hret0 hretE
      refine ⟨raid_bdev_io_complete
          { base_bdev_io_remaining := slots.length - nullCount (slots.take k.val)
            base_bdev_io_submitted := k.val
            base_bdev_io_status := IoStatus.SUCCESS
            completions := [] } IoStatus.FAILED, ?_, ?_⟩
      · rw [hrun]
        simp only [submit_reset_loop]
        rw [if_neg (by simp only [hch]; decide), if_neg hret0, if_neg hretE]
      · simp [raid_bdev_io_complete]

/-- Witness for C2: a single vacant slot aggregates one SUCCESS part and the
reset request completes SUCCESS. -/
theorem submit_reset_request_spec_witness :
    raid_bdev_submit_reset_request [⟨false, 0⟩] raid_bdev_io_setup =
      ResetOutcome.returned
        { base_bdev_io_remaining := 0
          base_bdev_io_submitted := 1
          base_bdev_io_status := IoStatus.SUCCESS
          completions := [IoStatus.SUCCESS] } :=
  (submit_reset_request_spec [⟨false, 0⟩]).2.1 (by decide) (by decide)

/-! ### Membership state and base bdev removal -/

/-- RAID device state, from `enum raid_bdev_state`. -/
inductive RaidState where
  | CONFIGURING
  | ONLINE
  | OFFLINE
deriving DecidableEq, Repr

/-- Superblock base entry state, from `enum raid_bdev_sb_base_bdev_state`. -/
inductive SbBaseState where
  | CONFIGURED
  | FAILED
deriving DecidableEq, Repr

/-- One `struct raid_bdev_sb_base_bdev` entry: the slot it describes and its
state (the fields the removal path reads and writes). -/
structure SbBaseEntry where
  slot : Nat
  state : SbBaseState
deriving DecidableEq, Repr

/-- The in-memory superblock fields used by the membership code. -/
structure Superblock where
  seq_number : Nat
  base_bdevs : List SbBaseEntry
deriving DecidableEq, Repr

/-- One `struct raid_base_bdev_info` slot: whether `desc` is non-NULL,
the `is_configured` flag and the `remove_scheduled` flag. -/
structure BaseSlot where
  has_desc : Bool
  is_configured : Bool
  remove_scheduled : Bool
deriving DecidableEq, Repr

/-- The `struct raid_bdev` fields driving the membership state machine. -/
structure RaidBdev where
  state : RaidState
  num_base_bdevs : Nat
  num_base_bdevs_discovered : Nat
  num_base_bdevs_operational : Nat
  min_base_bdevs_operational : Nat
  base_bdev_info : List BaseSlot
  sb : Option Superblock
  destroy_started : Bool
deriving DecidableEq, Repr

/-- A raid bdev together with the per-executor channel states: one list per
executor, one Bool per slot, true when `base_channel[i]` is non-NULL. -/
structure RaidHost where
  raid : RaidBdev
  channels : List (List Bool)
deriving DecidableEq, Repr

/-- Externally visible events of the removal callback chain. -/
inductive RemoveEvent where
  | quiesced
  | channelsCleared
  | unquiesced
  | slotFreed
  | sbWritten
  | unregistered
  | callbackDone (status : Int)
deriving DecidableEq, Repr

/-- Apply `f` to the slot at `idx`, when it exists. -/
def updateSlot (r : RaidBdev) (idx : Nat) (f : BaseSlot → BaseSlot) : RaidBdev :=
  match r.base_bdev_info.get? idx with
  | none => r
  | some s => { r with base_bdev_info := r.base_bdev_info.set idx (f s) }

/-- Model of `raid_bdev_free_base_bdev_resource` (bdev_raid.c:240): a slot
with no descriptor is left as is (only name and UUID are cleared); otherwise
the descriptor and app-thread channel are released and, when the slot was
configured, `num_base_bdevs_discovered` is decremented and `is_configured`
cleared. -/
def raid_bdev_free_base_bdev_resource (r : RaidBdev) (idx : Nat) : RaidBdev :=
  match r.base_bdev_info.get? idx with
  | none => r
  | some s =>
    if s.has_desc = false then r
    else
      { r with
        base_bdev_info := r.base_bdev_info.set idx
          { s with has_desc := false, is_configured := false }
        num_base_bdevs_discovered :=
          if s.is_configured then r.num_base_bdevs_discovered - 1
          else r.num_base_bdevs_discovered }

/-- Model of `raid_bdev_deconfigure` (bdev_raid.c:1389): not ONLINE means
the callback fires immediately; ONLINE means the device goes OFFLINE and is
unregistered from the host, the callback firing after unregistration. -/
def raid_bdev_deconfigure (r : RaidBdev) : RaidBdev × List RemoveEvent :=
  if r.state ≠ RaidState.ONLINE then
    (r, [RemoveEvent.callbackDone 0])
  else
    ({ r with state := RaidState.OFFLINE },
     [RemoveEvent.unregistered, RemoveEvent.callbackDone 0])

/-- The superblock entry update of `raid_bdev_remove_base_bdev_on_unquiesced`
(bdev_raid.c:1477-1490): the first entry in CONFIGURED state describing the
removed slot is set to FAILED. -/
def sb_entries_mark_failed : List SbBaseEntry → Nat → List SbBaseEntry
  | [], _ => []
  | e :: rest, idx =>
    if e.state = SbBaseState.CONFIGURED ∧ e.slot = idx then
      { e with state := SbBaseState.FAILED } :: rest
    else
      e :: sb_entries_mark_failed rest idx

/-- Model of `raid_bdev_channel_remove_base_bdev` (bdev_raid.c:1499): release
and null the removed slot's channel handle on one executor channel. -/
def raid_bdev_channel_remove_base_bdev (ch : List Bool) (idx : Nat) : List Bool :=
  ch.set idx false

/-- Model of `raid_bdev_remove_base_bdev` (bdev_raid.c:1557) with its
continuation chain (`on_quiesced` → per-channel handle release →
`channels_remove_done` → unquiesce → `on_unquiesced` → optional superblock
entry update and write → `remove_base_bdev_done`) run to completion.
`quiesce_ok` is the success of the synchronous `spdk_bdev_quiesce` call; the
unquiesce callback and the superblock write are taken as succeeding.
Returns the C return value, the final state and the event list. -/
def raid_bdev_remove_base_bdev (h : RaidHost) (idx : Nat) (quiesce_ok : Bool) :
    Int × RaidHost × List RemoveEvent :=
  match h.raid.base_bdev_info.get? idx with
  | none => (-19, h, [])
  | some s =>
    if s.has_desc = false then (-19, h, [])
    else if s.remove_scheduled then (0, h, [])
    else
      let r1 := { h.raid with base_bdev_info :=
        h.raid.base_bdev_info.set idx { s with remove_scheduled := true } }
      if r1.state ≠ RaidState.ONLINE then
        let r2 := raid_bdev_free_base_bdev_resource r1 idx
        (0, { h with raid := r2 }, [])
      else if r1.num_base_bdevs_operational = r1.min_base_bdevs_operational then
        let r2 := { r1 with num_base_bdevs_operational := r1.num_base_bdevs_operational - 1 }
        let step := raid_bdev_deconfigure r2
        (0, { h with raid := step.1 }, step.2)
      else
        let r2 := { r1 with num_base_bdevs_operational := r1.num_base_bdevs_operational - 1 }
        if quiesce_ok = false then
          let r3 := { r2 with base_bdev_info :=
            r2.base_bdev_info.set idx { s with remove_scheduled := false } }
          (0, { h with raid := r3 }, [])
        else
          let chans := h.channels.map (fun ch => raid_bdev_channel_remove_base_bdev ch idx)
          let r3 := raid_bdev_free_base_bdev_resource r2 idx
          match r3.sb with
          | some sb =>
            let r4 := { r3 with sb := some { sb with
                base_bdevs := sb_entries_mark_failed sb.base_bdevs idx } }
            let r5 := updateSlot r4 idx (fun t => { t with remove_scheduled := false })
            (0, { raid := r5, channels := chans },
             [RemoveEvent.quiesced, RemoveEvent.channelsCleared, RemoveEvent.unquiesced,
              RemoveEvent.slotFreed, RemoveEvent.sbWritten, RemoveEvent.callbackDone 0])
          | none =>
            let r4 := updateSlot r3 idx (fun t => { t with remove_scheduled := false })
            (0, { raid := r4, channels := chans },
             [RemoveEvent.quiesced, RemoveEvent.channelsCleared, RemoveEvent.unquiesced,
              RemoveEvent.slotFreed, RemoveEvent.callbackDone 0])

/-- Claim C8.  A remove request targeting a slot whose `remove_scheduled`
flag is already set returns success (0) immediately and performs no state
change at all: no counter change, no channel change, no superblock change,
and no events. -/
theorem remove_base_bdev_idempotent (h : RaidHost) (idx : Nat) (q : Bool)
    (s : BaseSlot) (hs : h.raid.base_bdev_info[idx]? = some s)
    (hdesc : s.has_desc = true) (hsched : s.remove_scheduled = true) :
    raid_bdev_remove_base_bdev h idx q = (0, h, []) := by
  simp [raid_bdev_remove_base_bdev, hs, hdesc, hsched]

/-- Witness for C8: a concrete ONLINE host with `remove_scheduled` already
set on slot 0. -/
theorem remove_base_bdev_idempotent_witness :
    raid_bdev_remove_base_bdev
      { raid := { state := RaidState.ONLINE, num_base_bdevs := 2,
                  num_base_bdevs_discovered := 2, num_base_bdevs_operational := 2,
                  min_base_bdevs_operational := 1,
                  base_bdev_info := [⟨true, true, true⟩, ⟨true, true, false⟩],
                  sb := none, destroy_started := false },
        channels := [[true, true]] } 0 true =
      (0,
       { raid := { state := RaidState.ONLINE, num_base_bdevs := 2,
                   num_base_bdevs_discovered := 2, num_base_bdevs_operational := 2,
                   min_base_bdevs_operational := 1,
                   base_bdev_info := [⟨true, true, true⟩, ⟨true, true, false⟩],
                   sb := none, destroy_started := false },
         channels := [[true, true]] },
       []) :=
  remove_base_bdev_idempotent _ 0 true ⟨true, true, true⟩ rfl rfl rfl

/-- Claim C10.  Removing a configured base from an ONLINE array that would
remain at or above `min_operational`, when the synchronous quiesce call
fails: `remove_scheduled` is cleared back to false, the function still
returns 0, no events occur (in particular no removal callback), and
`num_base_bdevs_operational` — decremented by the post-decrement threshold
check before the quiesce attempt — is not restored. -/
theorem remove_base_bdev_quiesce_fail (h : RaidHost) (idx : Nat)
    (s : BaseSlot) (hs : h.raid.base_bdev_info[idx]? = some s)
    (hdesc : s.has_desc = true) (hsched : s.remove_scheduled = false)
    (honline : h.raid.state = RaidState.ONLINE)
    (hop : h.raid.num_base_bdevs_operational ≠ h.raid.min_base_bdevs_operational) :
    raid_bdev_remove_base_bdev h idx false =
      (0,
       { h with raid := { h.raid with
           num_base_bdevs_operational := h.raid.num_base_bdevs_operational - 1
           base_bdev_info := h.raid.base_bdev_info.set idx
             { s with remove_scheduled := false } } },
       []) := by
  simp [raid_bdev_remove_base_bdev, hs, hdesc, hsched, honline, hop, List.set_set]

/-- Witness for C10: concrete ONLINE host, quiesce failing, slot 0. -/
theorem remove_base_bdev_quiesce_fail_witness :
    raid_bdev_remove_base_bdev
      { raid := { state := RaidState.ONLINE, num_base_bdevs := 2,
                  num_base_bdevs_discovered := 2, num_base_bdevs_operational := 2,
                  min_base_bdevs_operational := 1,
                  base_bdev_info := [⟨true, true, false⟩, ⟨true, true, false⟩],
                  sb := none, destroy_started := false },
        channels := [[true, true]] } 0 false =
      (0,
       { raid := { state := RaidState.ONLINE, num_base_bdevs := 2,
                   num_base_bdevs_discovered := 2, num_base_bdevs_operational := 1,
                   min_base_bdevs_operational := 1,
                   base_bdev_info := [⟨true, true, false⟩, ⟨true, true, false⟩],
                   sb := none, destroy_started := false },
         channels := [[true, true]] },
       []) := by
  have h := remove_base_bdev_quiesce_fail
    { raid := { state := RaidState.ONLINE, num_base_bdevs := 2,
                num_base_bdevs_discovered := 2, num_base_bdevs_operational := 2,
                min_base_bdevs_operational := 1,
                base_bdev_info := [⟨true, true, false⟩, ⟨true, true, false⟩],
                sb := none, destroy_started := false },
      channels := [[true, true]] } 0 ⟨true, true, false⟩ rfl rfl rfl rfl (by decide)
  rw [h]
  rfl

/-- Claim C3.  Removing a configured base from an ONLINE array (quiesce
succeeding): when `operational` equals `min_operational` before the removal
the slot is marked `remove_scheduled` and the array is deconfigured —
transitioning to OFFLINE and unregistering from the host (the operational
counter is also post-decremented); otherwise `operational` is decremented,
the array stays ONLINE (its `state` field is untouched), and the removal
quiesces the array, clears the removed slot's channel handle on every
executor, unquiesces, frees the slot resource and, when a superblock
exists, sets that slot's superblock entry state to FAILED and rewrites the
superblock — in that order. -/
theorem remove_base_bdev_online_spec (h : RaidHost) (idx : Nat)
    (s : BaseSlot) (hs : h.raid.base_bdev_info[idx]? = some s)
    (hdesc : s.has_desc = true) (hsched : s.remove_scheduled = false)
    (honline : h.raid.state = RaidState.ONLINE)
    (hlen : idx < h.raid.base_bdev_info.length) :
    (h.raid.num_base_bdevs_operational = h.raid.min_base_bdevs_operational →
      raid_bdev_remove_base_bdev h idx true =
        (0,
         { h with raid := { h.raid with
             state := RaidState.OFFLINE
             num_base_bdevs_operational := h.raid.num_base_bdevs_operational - 1
             base_bdev_info := h.raid.base_bdev_info.set idx
               { s with remove_scheduled := true } } },
         [RemoveEvent.unregistered, RemoveEvent.callbackDone 0])) ∧
    (h.raid.num_base_bdevs_operational ≠ h.raid.min_base_bdevs_operational →
      raid_bdev_remove_base_bdev h idx true =
        (0,
         { raid := { h.raid with
             num_base_bdevs_operational := h.raid.num_base_bdevs_operational - 1
             num_base_bdevs_discovered :=
               if s.is_configured then h.raid.num_base_bdevs_discovered - 1
               else h.raid.num_base_bdevs_discovered
             base_bdev_info := h.raid.base_bdev_info.set idx
               { has_desc := false, is_configured := false, remove_scheduled := false }
             sb := h.raid.sb.map (fun sb => { sb with
               base_bdevs := sb_entries_mark_failed sb.base_bdevs idx }) }
           channels := h.channels.map
             (fun ch => raid_bdev_channel_remove_base_bdev ch idx) },
         [RemoveEvent.quiesced, RemoveEvent.channelsCleared, RemoveEvent.unquiesced,
          RemoveEvent.slotFreed] ++
           (if h.raid.sb.isSome
            then [RemoveEvent.sbWritten, RemoveEvent.callbackDone 0]
            else [RemoveEvent.callbackDone 0]))) := by
  constructor
  · intro hop
    simp [raid_bdev_remove_base_bdev, hs, hdesc, hsched, honline, hop,
      raid_bdev_deconfigure]
  · intro hop
    have hget : (h.raid.base_bdev_info.set idx
        { s with remove_scheduled := true })[idx]? =
          some { s with remove_scheduled := true } :=
      List.getElem?_set_eq_of_lt _ hlen
    rcases hsb : h.raid.sb with _ | sb
    · simp [raid_bdev_remove_base_bdev, hs, hdesc, hsched, honline, hop,
        raid_bdev_free_base_bdev_resource, hget, hdesc, List.set_set,
        updateSlot, hsb, raid_bdev_channel_remove_base_bdev,
        List.getElem?_set_eq_of_lt _ hlen]
    · simp [raid_bdev_remove_base_bdev, hs, hdesc, hsched, honline, hop,
        raid_bdev_free_base_bdev_resource, hget, hdesc, List.set_set,
        updateSlot, hsb, raid_bdev_channel_remove_base_bdev,
        List.getElem?_set_eq_of_lt _ hlen]

/-- Witness for C3: concrete two-member ONLINE array with a superblock,
removing slot 0 on the benign path. -/
theorem remove_base_bdev_online_spec_witness :
    raid_bdev_remove_base_bdev
      { raid := { state := RaidState.ONLINE, num_base_bdevs := 2,
                  num_base_bdevs_discovered := 2, num_base_bdevs_operational := 2,
                  min_base_bdevs_operational := 1,
                  base_bdev_info := [⟨true, true, false⟩, ⟨true, true, false⟩],
                  sb := some { seq_number := 5,
                               base_bdevs := [⟨0, SbBaseState.CONFIGURED⟩,
                                              ⟨1, SbBaseState.CONFIGURED⟩] },
                  destroy_started := false },
        channels := [[true, true], [true, true]] } 0 true =
      (0,
       { raid := { state := RaidState.ONLINE, num_base_bdevs := 2,
                   num_base_bdevs_discovered := 1, num_base_bdevs_operational := 1,
                   min_base_bdevs_operational := 1,
                   base_bdev_info := [⟨false, false, false⟩, ⟨true, true, false⟩],
                   sb := some { seq_number := 5,
                                base_bdevs := [⟨0, SbBaseState.FAILED⟩,
                                               ⟨1, SbBaseState.CONFIGURED⟩] },
                   destroy_started := false },
         channels := [[false, true], [false, true]] },
       [RemoveEvent.quiesced, RemoveEvent.channelsCleared, RemoveEvent.unquiesced,
        RemoveEvent.slotFreed, RemoveEvent.sbWritten, RemoveEvent.callbackDone 0]) := by
  have h := (remove_base_bdev_online_spec
    { raid := { state := RaidState.ONLINE, num_base_bdevs := 2,
                num_base_bdevs_discovered := 2, num_base_bdevs_operational := 2,
                min_base_bdevs_operational := 1,
                base_bdev_info := [⟨true, true, false⟩, ⟨true, true, false⟩],
                sb := some { seq_number := 5,
                             base_bdevs := [⟨0, SbBaseState.CONFIGURED⟩,
                                            ⟨1, SbBaseState.CONFIGURED⟩] },
                destroy_started := false },
      channels := [[true, true], [true, true]] } 0 ⟨true, true, false⟩
    rfl rfl rfl rfl (by decide)).2 (by decide)
  rw [h]
  rfl

/-! ### Reachable-state invariant over create, add, remove, delete -/

/-- The raid bdev as set up by `raid_bdev_create` (bdev_raid.c:1057 and
1183): state CONFIGURING, `num_base_bdevs_operational := N`,
`min_base_bdevs_operational` from the level module constraint (creation
validated `0 < min_operational ≤ N`), all slots vacant. -/
def raid_bdev_create_state (N min_op : Nat) (sb : Option Superblock) : RaidBdev :=
  { state := RaidState.CONFIGURING
    num_base_bdevs := N
    num_base_bdevs_discovered := 0
    num_base_bdevs_operational := N
    min_base_bdevs_operational := min_op
    base_bdev_info := List.replicate N ⟨false, false, false⟩
    sb := sb
    destroy_started := false }

/-- Model of a successful base bdev bind: `raid_bdev_configure_base_bdev`
(bdev_raid.c:1788, which asserts `desc == NULL` and state not ONLINE)
followed by `raid_bdev_configure_base_bdev_cont` (bdev_raid.c:1737): the
slot becomes configured, `discovered` is incremented, and when `discovered`
reaches `operational` the array is configured (`raid_bdev_configure`
asserts CONFIGURING) and goes ONLINE when `configure_ok`. -/
def raid_bdev_configure_base_bdev (r : RaidBdev) (idx : Nat) (configure_ok : Bool) : RaidBdev :=
  match r.base_bdev_info.get? idx with
  | none => r
  | some s =>
    if s.has_desc then r
    else if r.state = RaidState.ONLINE then r
    else
      let r1 := { r with
        base_bdev_info := r.base_bdev_info.set idx
          { s with has_desc := true, is_configured := true }
        num_base_bdevs_discovered := r.num_base_bdevs_discovered + 1 }
      if r1.num_base_bdevs_discovered = r1.num_base_bdevs_operational ∧
         r1.state = RaidState.CONFIGURING ∧ configure_ok then
        { r1 with state := RaidState.ONLINE }
      else r1

/-- Model of `raid_bdev_delete` (bdev_raid.c:1695): a second call after
`destroy_started` changes nothing (it fails with -EALREADY); otherwise every
slot is scheduled for removal (resources freed at once when the array is
not ONLINE), then the device is freed when nothing is discovered, else
deconfigured. -/
def raid_bdev_delete (r : RaidBdev) : RaidBdev :=
  if r.destroy_started then r
  else
    let r1 := { r with destroy_started := true }
    let r2 := (List.range r1.num_base_bdevs).foldl
      (fun acc i =>
        let acc1 := updateSlot acc i (fun t => { t with remove_scheduled := true })
        if acc1.state ≠ RaidState.ONLINE then
          raid_bdev_free_base_bdev_resource acc1 i
        else acc1) r1
    if r2.num_base_bdevs_discovered = 0 then r2
    else (raid_bdev_deconfigure r2).1

/-- The app-thread membership operations quantified over by claim C7. -/
inductive RaidOp where
  | add (idx : Nat) (configure_ok : Bool)
  | remove (idx : Nat) (quiesce_ok : Bool)
  | delete
deriving DecidableEq, Repr

def raid_bdev_apply_op (r : RaidBdev) : RaidOp → RaidBdev
  | RaidOp.add idx ok => raid_bdev_configure_base_bdev r idx ok
  | RaidOp.remove idx q => (raid_bdev_remove_base_bdev ⟨r, []⟩ idx q).2.1.raid
  | RaidOp.delete => raid_bdev_delete r

def raid_bdev_run_ops (r : RaidBdev) (ops : List RaidOp) : RaidBdev :=
  ops.foldl raid_bdev_apply_op r

/-- Number of configured slots. -/
def configuredCount (r : RaidBdev) : Nat :=
  r.base_bdev_info.countP (fun s => s.is_configured)

/-- The structural invariant maintained by the membership code.  The last
conjunct is the amended form of the spec invariant
`min_operational ≤ operational`: it holds as long as the device has not
been deconfigured (OFFLINE). -/
def RaidStructInv (r : RaidBdev) : Prop :=
  r.base_bdev_info.length = r.num_base_bdevs ∧
  r.num_base_bdevs_discovered = configuredCount r ∧
  (∀ s ∈ r.base_bdev_info, s.is_configured = true → s.has_desc = true) ∧
  0 < r.min_base_bdevs_operational ∧
  r.min_base_bdevs_operational ≤ r.num_base_bdevs ∧
  r.num_base_bdevs_operational ≤ r.num_base_bdevs ∧
  (r.state ≠ RaidState.OFFLINE →
    r.min_base_bdevs_operational ≤ r.num_base_bdevs_operational)

theorem configuredCount_set_balance (l : List BaseSlot) :
    ∀ (i : Nat) (a b : BaseSlot), l.get? i = some b →
      (l.set i a).countP (fun t => t.is_configured) +
        (if b.is_configured = true then 1 else 0) =
        l.countP (fun t => t.is_configured) +
          (if a.is_configured = true then 1 else 0) := by
  induction l with
  | nil => intro i a b hb; simp at hb
  | cons x xs ih =>
    intro i a b hb
    cases i with
    | zero =>
      simp only [List.get?] at hb
      cases hb
      simp only [List.set, List.countP_cons]
      omega
    | succ n =>
      simp only [List.get?] at hb
      simp only [List.set, List.countP_cons]
      have := ih n a b hb
      omega

theorem forall_mem_set {α : Type} {P : α → Prop} {l : List α} {i : Nat} {a : α}
    (hl : ∀ x ∈ l, P x) (ha : P a) : ∀ x ∈ l.set i a, P x := by
  intro x hx
  rcases List.mem_or_eq_of_mem_set hx with h | h
  · exact hl x h
  · rw [h]; exact ha

theorem structInv_set_slot (r : RaidBdev) (i : Nat) (s a : BaseSlot)
    (hget : r.base_bdev_info.get? i = some s)
    (hcfg_eq : a.is_configured = s.is_configured)
    (himp : a.is_configured = true → a.has_desc = true)
    (hinv : RaidStructInv r) :
    RaidStructInv { r with base_bdev_info := r.base_bdev_info.set i a } := by
  obtain ⟨hlen, hdisc, hcfg, hmin0, hminN, hopN, hstate⟩ := hinv
  have hbal := configuredCount_set_balance r.base_bdev_info i a s hget
  rw [hcfg_eq] at hbal
  refine ⟨by simpa using hlen, ?_, forall_mem_set hcfg himp, hmin0, hminN, hopN, hstate⟩
  show r.num_base_bdevs_discovered =
    configuredCount { r with base_bdev_info := r.base_bdev_info.set i a }
  simp only [configuredCount] at hdisc ⊢
  omega

theorem structInv_updateSlot_rs (r : RaidBdev) (i : Nat) (b : Bool)
    (hinv : RaidStructInv r) :
    RaidStructInv (updateSlot r i (fun t => { t with remove_scheduled := b })) := by
  rcases hget : r.base_bdev_info.get? i with _ | t
  · simp only [updateSlot, hget]
    exact hinv
  · simp only [updateSlot, hget]
    exact structInv_set_slot r i t { t with remove_scheduled := b } hget rfl
      (fun hc => hinv.2.2.1 t (List.get?_mem hget) hc) hinv

theorem structInv_free_resource (r : RaidBdev) (i : Nat) (hinv : RaidStructInv r) :
    RaidStructInv (raid_bdev_free_base_bdev_resource r i) ∧
    (raid_bdev_free_base_bdev_resource r i).state = r.state ∧
    (raid_bdev_free_base_bdev_resource r i).num_base_bdevs = r.num_base_bdevs ∧
    (raid_bdev_free_base_bdev_resource r i).num_base_bdevs_operational =
      r.num_base_bdevs_operational ∧
    (raid_bdev_free_base_bdev_resource r i).min_base_bdevs_operational =
      r.min_base_bdevs_operational ∧
    (raid_bdev_free_base_bdev_resource r i).sb = r.sb := by
  obtain ⟨hlen, hdisc, hcfg, hmin0, hminN, hopN, hstate⟩ := hinv
  rcases hget : r.base_bdev_info.get? i with _ | s
  · simp only [raid_bdev_free_base_bdev_resource, hget]
    refine ⟨⟨hlen, hdisc, hcfg, hmin0, hminN, hopN, hstate⟩, ?_, ?_, ?_, ?_, ?_⟩ <;> trivial
  · by_cases hdesc : s.has_desc = false
    · simp only [raid_bdev_free_base_bdev_resource, hget, hdesc, if_true]
      refine ⟨⟨hlen, hdisc, hcfg, hmin0, hminN, hopN, hstate⟩, ?_, ?_, ?_, ?_, ?_⟩ <;> trivial
    · simp only [raid_bdev_free_base_bdev_resource, hget]
      rw [if_neg hdesc]
      have hbal := configuredCount_set_balance r.base_bdev_info i
        { s with has_desc := false, is_configured := false } s hget
      refine ⟨⟨by simpa using hlen, ?_,
        forall_mem_set hcfg (by intro h; simp at h), hmin0, hminN, hopN, hstate⟩,
        rfl, rfl, rfl, rfl, rfl⟩
      show (if s.is_configured = true then r.num_base_bdevs_discovered - 1
            else r.num_base_bdevs_discovered) =
        configuredCount { r with
          base_bdev_info := r.base_bdev_info.set i
            { s with has_desc := false, is_configured := false }
          num_base_bdevs_discovered :=
            if s.is_configured = true then r.num_base_bdevs_discovered - 1
            else r.num_base_bdevs_discovered }
      simp only [configuredCount] at hdisc ⊢
      by_cases hc : s.is_configured = true
      · rw [hc] at hbal ⊢
        simp only [if_true] at hbal ⊢
        simp only [Bool.false_eq_true, if_false] at hbal
        omega
      · have hc' : s.is_configured = false := by
          cases hcc : s.is_configured
          · rfl
          · exact absurd hcc hc
        rw [hc'] at hbal ⊢
        simp only [Bool.false_eq_true, if_false] at hbal ⊢
        omega

theorem structInv_deconfigure (r : RaidBdev) (hinv : RaidStructInv r) :
    RaidStructInv (raid_bdev_deconfigure r).1 ∧
    (raid_bdev_deconfigure r).1.num_base_bdevs_discovered = r.num_base_bdevs_discovered ∧
    (raid_bdev_deconfigure r).1.num_base_bdevs_operational = r.num_base_bdevs_operational := by
  obtain ⟨hlen, hdisc, hcfg, hmin0, hminN, hopN, hstate⟩ := hinv
  unfold raid_bdev_deconfigure
  by_cases hst : r.state = RaidState.ONLINE
  · rw [if_neg (by simp [hst])]
    exact ⟨⟨hlen, hdisc, hcfg, hmin0, hminN, hopN, fun h => absurd rfl h⟩, rfl, rfl⟩
  · rw [if_pos (by simp [hst])]
    exact ⟨⟨hlen, hdisc, hcfg, hmin0, hminN, hopN, hstate⟩, rfl, rfl⟩

theorem foldl_preserve {σ β : Type} {P : σ → Prop} (f : σ → β → σ)
    (hf : ∀ acc b, P acc → P (f acc b)) :
    ∀ (l : List β) (acc : σ), P acc → P (l.foldl f acc) := by
  intro l
  induction l with
  | nil => intro acc h; exact h
  | cons x xs ih => intro acc h; exact ih _ (hf acc x h)

theorem updateSlot_frame (r : RaidBdev) (i : Nat) (f : BaseSlot → BaseSlot) :
    (updateSlot r i f).state = r.state ∧
    (updateSlot r i f).num_base_bdevs = r.num_base_bdevs ∧
    (updateSlot r i f).num_base_bdevs_operational = r.num_base_bdevs_operational ∧
    (updateSlot r i f).min_base_bdevs_operational = r.min_base_bdevs_operational := by
  rcases hget : r.base_bdev_info.get? i with _ | t <;>
    simp only [updateSlot, hget] <;>
    exact ⟨by trivial, by trivial, by trivial, by trivial⟩

theorem structInv_configure_base_bdev (r : RaidBdev) (idx : Nat) (ok : Bool)
    (hinv : RaidStructInv r) :
    RaidStructInv (raid_bdev_configure_base_bdev r idx ok) := by
  have hinv0 := hinv
  obtain ⟨hlen, hdisc, hcfg, hmin0, hminN, hopN, hstate⟩ := hinv
  rcases hget : r.base_bdev_info.get? idx with _ | s
  · simp only [raid_bdev_configure_base_bdev, hget]
    exact hinv0
  · cases hdesc : s.has_desc with
    | true =>
      simp only [raid_bdev_configure_base_bdev, hget, hdesc, if_true]
      exact hinv0
    | false =>
      by_cases honl : r.state = RaidState.ONLINE
      · simp only [raid_bdev_configure_base_bdev, hget, hdesc]
        rw [if_neg (by simp), if_pos honl]
        exact hinv0
      · have hscfg : s.is_configured = false := by
          cases hsc : s.is_configured
          · rfl
          · rw [hcfg s (List.get?_mem hget) hsc] at hdesc
            exact absurd hdesc (by simp)
        have hbal := configuredCount_set_balance r.base_bdev_info idx
          { s with has_desc := true, is_configured := true } s hget
        rw [hscfg] at hbal
        simp only [Bool.false_eq_true, if_false, if_true] at hbal
        simp only [raid_bdev_configure_base_bdev, hget, hdesc]
        rw [if_neg (by simp), if_neg honl]
        by_cases hc2 : r.num_base_bdevs_discovered + 1 = r.num_base_bdevs_operational ∧
            r.state = RaidState.CONFIGURING ∧ ok = true
        · rw [if_pos hc2]
          refine ⟨by simpa using hlen, ?_,
            forall_mem_set hcfg (fun _ => rfl), hmin0, hminN, hopN, ?_⟩
          · show r.num_base_bdevs_discovered + 1 = configuredCount _
            simp only [configuredCount] at hdisc ⊢
            omega
          · intro _
            exact hstate (by rw [hc2.2.1]; intro hh; cases hh)
        · rw [if_neg hc2]
          refine ⟨by simpa using hlen, ?_,
            forall_mem_set hcfg (fun _ => rfl), hmin0, hminN, hopN, hstate⟩
          show r.num_base_bdevs_discovered + 1 = configuredCount _
          simp only [configuredCount] at hdisc ⊢
          omega

theorem structInv_remove_base_bdev (r : RaidBdev) (idx : Nat) (q : Bool)
    (hinv : RaidStructInv r) :
    RaidStructInv (raid_bdev_remove_base_bdev ⟨r, []⟩ idx q).2.1.raid := by
  have hinv0 := hinv
  obtain ⟨hlen, hdisc, hcfg, hmin0, hminN, hopN, hstate⟩ := hinv
  rcases hget : r.base_bdev_info.get? idx with _ | s
  · simp only [raid_bdev_remove_base_bdev, hget]
    exact hinv0
  · have hgetE : r.base_bdev_info[idx]? = some s := by
      rw [← List.get?_eq_getElem?]; exact hget
    cases hdesc : s.has_desc with
    | false =>
      simp [raid_bdev_remove_base_bdev, hgetE, hdesc]
      exact hinv0
    | true =>
      cases hsched : s.remove_scheduled with
      | true =>
        simp [raid_bdev_remove_base_bdev, hgetE, hdesc, hsched]
        exact hinv0
      | false =>
        have hinv1 : RaidStructInv
            { r with base_bdev_info :=
                r.base_bdev_info.set idx (⟨true, s.is_configured, true⟩ : BaseSlot) } :=
          structInv_set_slot r idx s ⟨true, s.is_configured, true⟩ hget rfl
            (fun _ => rfl) hinv0
        have hinv1' := hinv1
        obtain ⟨hlen1, hdisc1, hcfg1, _, _, _, _⟩ := hinv1'
        by_cases honl : r.state = RaidState.ONLINE
        · by_cases hopmin : r.num_base_bdevs_operational = r.min_base_bdevs_operational
          · -- threshold removal: deconfigure, OFFLINE
            simp [raid_bdev_remove_base_bdev, hgetE, hdesc, hsched,
              raid_bdev_deconfigure, honl, hopmin]
            refine ⟨hlen1, ?_, hcfg1, hmin0, hminN,
              (show r.min_base_bdevs_operational - 1 ≤ r.num_base_bdevs by omega),
              fun h => absurd rfl h⟩
            exact hdisc1
          · have hminlt : r.min_base_bdevs_operational < r.num_base_bdevs_operational := by
              have := hstate (by rw [honl]; intro hh; cases hh)
              omega
            cases q with
            | false =>
              simp [raid_bdev_remove_base_bdev, hgetE, hdesc, hsched, honl, hopmin,
                List.set_set]
              have hinv2 : RaidStructInv
                  { r with base_bdev_info :=
                      r.base_bdev_info.set idx (⟨true, s.is_configured, false⟩ : BaseSlot) } :=
                structInv_set_slot r idx s ⟨true, s.is_configured, false⟩ hget rfl
                  (fun _ => rfl) hinv0
              obtain ⟨hlen2, hdisc2, hcfg2, _, _, _, _⟩ := hinv2
              exact ⟨hlen2, hdisc2, hcfg2, hmin0, hminN,
                (show r.num_base_bdevs_operational - 1 ≤ r.num_base_bdevs by omega),
                fun _ =>
                  (show r.min_base_bdevs_operational ≤
                    r.num_base_bdevs_operational - 1 by omega)⟩
            | true =>
              simp [raid_bdev_remove_base_bdev, hgetE, hdesc, hsched, honl, hopmin]
              have hinv2 : RaidStructInv
                  { state := RaidState.ONLINE
                    num_base_bdevs := r.num_base_bdevs
                    num_base_bdevs_discovered := r.num_base_bdevs_discovered
                    num_base_bdevs_operational := r.num_base_bdevs_operational - 1
                    min_base_bdevs_operational := r.min_base_bdevs_operational
                    base_bdev_info :=
                      r.base_bdev_info.set idx (⟨true, s.is_configured, true⟩ : BaseSlot)
                    sb := r.sb
                    destroy_started := r.destroy_started } :=
                ⟨hlen1, hdisc1, hcfg1, hmin0, hminN,
                  (show r.num_base_bdevs_operational - 1 ≤ r.num_base_bdevs by omega),
                  fun _ =>
                    (show r.min_base_bdevs_operational ≤
                      r.num_base_bdevs_operational - 1 by omega)⟩
              obtain ⟨hinv3, _, _, _, _, _⟩ :=
                structInv_free_resource
                  { state := RaidState.ONLINE
                    num_base_bdevs := r.num_base_bdevs
                    num_base_bdevs_discovered := r.num_base_bdevs_discovered
                    num_base_bdevs_operational := r.num_base_bdevs_operational - 1
                    min_base_bdevs_operational := r.min_base_bdevs_operational
                    base_bdev_info :=
                      r.base_bdev_info.set idx (⟨true, s.is_configured, true⟩ : BaseSlot)
                    sb := r.sb
                    destroy_started := r.destroy_started } idx hinv2
              rcases hsb : (raid_bdev_free_base_bdev_resource
                  { state := RaidState.ONLINE
                    num_base_bdevs := r.num_base_bdevs
                    num_base_bdevs_discovered := r.num_base_bdevs_discovered
                    num_base_bdevs_operational := r.num_base_bdevs_operational - 1
                    min_base_bdevs_operational := r.min_base_bdevs_operational
                    base_bdev_info :=
                      r.base_bdev_info.set idx (⟨true, s.is_configured, true⟩ : BaseSlot)
                    sb := r.sb
                    destroy_started := r.destroy_started } idx).sb with _ | sb
              · simp only [hsb]
                exact structInv_updateSlot_rs _ idx false hinv3
              · simp only [hsb]
                exact structInv_updateSlot_rs _ idx false hinv3
        · -- not ONLINE: free the slot resource synchronously
          simp [raid_bdev_remove_base_bdev, hgetE, hdesc, hsched, honl]
          exact (structInv_free_resource _ idx hinv1).1

theorem structInv_delete (r : RaidBdev) (hinv : RaidStructInv r) :
    RaidStructInv (raid_bdev_delete r) := by
  by_cases hd : r.destroy_started = true
  · simp only [raid_bdev_delete]
    rw [if_pos hd]
    exact hinv
  · simp only [raid_bdev_delete]
    rw [if_neg hd]
    have hfold := foldl_preserve
      (P := fun a => RaidStructInv a)
      (fun acc i =>
        let acc1 := updateSlot acc i (fun t => { t with remove_scheduled := true })
        if acc1.state ≠ RaidState.ONLINE then
          raid_bdev_free_base_bdev_resource acc1 i
        else acc1)
      (by
        intro acc i hacc
        have h1 := structInv_updateSlot_rs acc i true hacc
        by_cases hst : (updateSlot acc i
            (fun t => { t with remove_scheduled := true })).state = RaidState.ONLINE
        · simp only
          rw [if_neg (by simpa using hst)]
          exact h1
        · simp only
          rw [if_pos (by simpa using hst)]
          exact (structInv_free_resource _ i h1).1)
      (List.range r.num_base_bdevs)
      { r with destroy_started := true }
      hinv
    by_cases hz : (List.foldl
        (fun acc i =>
          let acc1 := updateSlot acc i (fun t => { t with remove_scheduled := true })
          if acc1.state ≠ RaidState.ONLINE then
            raid_bdev_free_base_bdev_resource acc1 i
          else acc1)
        { r with destroy_started := true }
        (List.range r.num_base_bdevs)).num_base_bdevs_discovered = 0
    · rw [if_pos hz]
      exact hfold
    · rw [if_neg hz]
      exact (structInv_deconfigure _ hfold).1

theorem structInv_create (N min_op : Nat) (sb : Option Superblock)
    (h1 : 0 < min_op) (h2 : min_op ≤ N) :
    RaidStructInv (raid_bdev_create_state N min_op sb) := by
  refine ⟨by simp [raid_bdev_create_state], ?_, ?_, h1, h2, le_refl N, fun _ => h2⟩
  · show 0 = configuredCount (raid_bdev_create_state N min_op sb)
    simp only [configuredCount, raid_bdev_create_state]
    rw [eq_comm, List.countP_eq_zero]
    intro a ha
    rw [List.eq_of_mem_replicate ha]
    simp
  · intro s hs
    have hs' : s ∈ List.replicate N (⟨false, false, false⟩ : BaseSlot) := by
      simpa [raid_bdev_create_state] using hs
    rw [List.eq_of_mem_replicate hs']
    intro h
    cases h

theorem structInv_apply_op (r : RaidBdev) (op : RaidOp) (hinv : RaidStructInv r) :
    RaidStructInv (raid_bdev_apply_op r op) := by
  cases op with
  | add idx ok => exact structInv_configure_base_bdev r idx ok hinv
  | remove idx q => exact structInv_remove_base_bdev r idx q hinv
  | delete => exact structInv_delete r hinv

theorem structInv_run_ops (r : RaidBdev) (ops : List RaidOp) (hinv : RaidStructInv r) :
    RaidStructInv (raid_bdev_run_ops r ops) :=
  foldl_preserve raid_bdev_apply_op
    (fun acc b h => structInv_apply_op acc b h) ops r hinv

/-- Counterexample to claim C7 as stated: a two-member array with
`min_operational = 2` (e.g. RAID0, whose UNSET constraint gives
`min_operational = N`), brought ONLINE by two adds and then hit by one
remove, is a reachable state in which `operational = 1 <
min_operational = 2` — the threshold remove post-decrements the counter and
deconfigures, so `min_operational ≤ operational` does not hold in every
reachable state. -/
theorem reachable_invariant_cex :
    (raid_bdev_run_ops (raid_bdev_create_state 2 2 none)
        [RaidOp.add 0 true, RaidOp.add 1 true,
         RaidOp.remove 0 true]).num_base_bdevs_operational <
      (raid_bdev_run_ops (raid_bdev_create_state 2 2 none)
        [RaidOp.add 0 true, RaidOp.add 1 true,
         RaidOp.remove 0 true]).min_base_bdevs_operational := by
  decide

/-- Claim C7 amended.  For every RAID device reachable by any sequence of
add, remove and delete operations from a freshly created device (creation
validated `0 < min_operational ≤ N`): `0 < min_operational`,
`min_operational ≤ N`, `operational ≤ N` and `discovered ≤ N` always hold,
and `min_operational ≤ operational` holds whenever the device is not
OFFLINE — a threshold removal post-decrements `operational` below
`min_operational` exactly when it deconfigures the device to OFFLINE. -/
theorem reachable_invariant (N min_op : Nat) (sb : Option Superblock)
    (ops : List RaidOp) (h1 : 0 < min_op) (h2 : min_op ≤ N) :
    0 < (raid_bdev_run_ops (raid_bdev_create_state N min_op sb)
        ops).min_base_bdevs_operational ∧
    (raid_bdev_run_ops (raid_bdev_create_state N min_op sb)
        ops).min_base_bdevs_operational ≤
      (raid_bdev_run_ops (raid_bdev_create_state N min_op sb) ops).num_base_bdevs ∧
    (raid_bdev_run_ops (raid_bdev_create_state N min_op sb)
        ops).num_base_bdevs_operational ≤
      (raid_bdev_run_ops (raid_bdev_create_state N min_op sb) ops).num_base_bdevs ∧
    (raid_bdev_run_ops (raid_bdev_create_state N min_op sb)
        ops).num_base_bdevs_discovered ≤
      (raid_bdev_run_ops (raid_bdev_create_state N min_op sb) ops).num_base_bdevs ∧
    ((raid_bdev_run_ops (raid_bdev_create_state N min_op sb) ops).state ≠
        RaidState.OFFLINE →
      (raid_bdev_run_ops (raid_bdev_create_state N min_op sb)
          ops).min_base_bdevs_operational ≤
        (raid_bdev_run_ops (raid_bdev_create_state N min_op sb)
            ops).num_base_bdevs_operational) := by
  obtain ⟨hlen, hdisc, _, h4, h5, h6, h7⟩ :=
    structInv_run_ops (raid_bdev_create_state N min_op sb) ops
      (structInv_create N min_op sb h1 h2)
  refine ⟨h4, h5, h6, ?_, h7⟩
  have hle := List.countP_le_length (l :=
    (raid_bdev_run_ops (raid_bdev_create_state N min_op sb) ops).base_bdev_info)
    (p := fun t => t.is_configured)
  simp only [configuredCount] at hdisc
  omega

/-- Witness for the amended C7: the discovered-member bound instantiated on
the counterexample trace. -/
theorem reachable_invariant_witness :
    (raid_bdev_run_ops (raid_bdev_create_state 2 2 none)
        [RaidOp.add 0 true, RaidOp.add 1 true,
         RaidOp.remove 0 true]).num_base_bdevs_discovered ≤
      (raid_bdev_run_ops (raid_bdev_create_state 2 2 none)
        [RaidOp.add 0 true, RaidOp.add 1 true,
         RaidOp.remove 0 true]).num_base_bdevs :=
  (reachable_invariant 2 2 none
    [RaidOp.add 0 true, RaidOp.add 1 true, RaidOp.remove 0 true]
    (by decide) (by decide)).2.2.2.1

/-! ### Examine: superblock reconciliation by sequence number -/

/-- On-disk superblock base entry as read by `raid_bdev_examine_sb`: member
UUID (0 models the null UUID), slot and state. -/
structure ExamSbEntry where
  uuid : Nat
  slot : Nat
  state : SbBaseState
deriving DecidableEq, Repr

/-- The superblock fields read by `raid_bdev_examine_sb`. -/
structure ExamSb where
  seq_number : Nat
  uuid : Nat
  block_size : Nat
  base_bdevs : List ExamSbEntry
deriving DecidableEq, Repr

/-- An in-memory raid device as consulted by `raid_bdev_examine_sb`: UUID,
state, in-memory superblock, and the UUIDs of its bound base slots. -/
structure ExamRaid where
  uuid : Nat
  state : RaidState
  sb : ExamSb
  base_uuids : List Nat
deriving DecidableEq, Repr

/-- The base bdev being examined. -/
structure ExamBdev where
  uuid : Nat
  blocklen : Nat
deriving DecidableEq, Repr

/-- What `raid_bdev_examine_sb` ends up doing.  `deletedExisting` records
that `raid_bdev_delete` ran on the in-memory device; `createdFresh` that
`raid_bdev_create_from_sb` ran; `reference` is the superblock used for the
entry lookup and the binding. -/
inductive ExamineAction where
  | skipBlockSizeMismatch
  | skipNullUuid
  | ignoreNewer
  | noEntry (deletedExisting : Bool) (reference : ExamSb)
  | inactiveMember (deletedExisting createdFresh : Bool) (reference : ExamSb)
  | bindMember (deletedExisting createdFresh : Bool) (reference : ExamSb)
  | memberNotFound (deletedExisting createdFresh : Bool) (reference : ExamSb)
deriving DecidableEq, Repr

/-- The tail of `raid_bdev_examine_sb` (bdev_raid.c:2086-2134) after the
sequence-number reconciliation: look up this bdev's UUID among the reference
superblock's entries; when no device is in memory, create one from the
reference superblock (its slots get the UUIDs of the CONFIGURED entries,
`raid_bdev_create_from_sb`, bdev_raid.c:1988); skip entries whose state is
not CONFIGURED; otherwise bind the slot whose UUID matches. -/
def raid_bdev_examine_sb_cont (ref : ExamSb) (bdev : ExamBdev) (cur : Option ExamRaid)
    (deleted : Bool) : ExamineAction :=
  match ref.base_bdevs.find? (fun e => e.uuid = bdev.uuid) with
  | none => ExamineAction.noEntry deleted ref
  | some entry =>
    let created := cur.isNone
    let members : List Nat :=
      match cur with
      | some c => c.base_uuids
      | none => (ref.base_bdevs.filter
          (fun e => e.state = SbBaseState.CONFIGURED)).map (fun e => e.uuid)
    if entry.state ≠ SbBaseState.CONFIGURED then
      ExamineAction.inactiveMember deleted created ref
    else if members.contains bdev.uuid then
      ExamineAction.bindMember deleted created ref
    else
      ExamineAction.memberNotFound deleted created ref

/-- Model of `raid_bdev_examine_sb` (bdev_raid.c:2037): the block-size and
null-UUID guards, then reconciliation by sequence number against the device
list, then the binding tail.  A strictly newer on-disk superblock deletes a
CONFIGURING in-memory device and continues with no device (fresh assembly),
but is ignored when the device has left CONFIGURING; a strictly older one
is superseded by the in-memory superblock as reference. -/
def raid_bdev_examine_sb (sb : ExamSb) (bdev : ExamBdev) (devices : List ExamRaid) :
    ExamineAction :=
  if sb.block_size ≠ bdev.blocklen then ExamineAction.skipBlockSizeMismatch
  else if sb.uuid = 0 then ExamineAction.skipNullUuid
  else
    match devices.find? (fun d => d.uuid = sb.uuid) with
    | some cur =>
      if cur.sb.seq_number < sb.seq_number then
        if cur.state ≠ RaidState.CONFIGURING then ExamineAction.ignoreNewer
        else raid_bdev_examine_sb_cont sb bdev none true
      else if sb.seq_number < cur.sb.seq_number then
        raid_bdev_examine_sb_cont cur.sb bdev (some cur) false
      else raid_bdev_examine_sb_cont sb bdev (some cur) false
    | none => raid_bdev_examine_sb_cont sb bdev none false

/-- Claim C4.  When examine reads a valid superblock whose array UUID
matches an in-memory device `cur` (block size matching, UUID non-null):
a strictly greater on-disk sequence number with `cur` in CONFIGURING leads
to deleting `cur` and assembling fresh from the newer on-disk superblock
(the binding tail runs with no in-memory device, `deleted = true`, and the
on-disk superblock as reference); a strictly greater sequence number with
`cur` not in CONFIGURING is ignored without any binding; a strictly smaller
one proceeds with the in-memory superblock as the reference for binding. -/
theorem examine_sb_seq_arbitration (sb : ExamSb) (bdev : ExamBdev)
    (devices : List ExamRaid) (cur : ExamRaid)
    (hbs : sb.block_size = bdev.blocklen)
    (huuid : sb.uuid ≠ 0)
    (hfind : devices.find? (fun d => d.uuid = sb.uuid) = some cur) :
    (cur.sb.seq_number < sb.seq_number → cur.state = RaidState.CONFIGURING →
      raid_bdev_examine_sb sb bdev devices =
        raid_bdev_examine_sb_cont sb bdev none true) ∧
    (cur.sb.seq_number < sb.seq_number → cur.state ≠ RaidState.CONFIGURING →
      raid_bdev_examine_sb sb bdev devices = ExamineAction.ignoreNewer) ∧
    (sb.seq_number < cur.sb.seq_number →
      raid_bdev_examine_sb sb bdev devices =
        raid_bdev_examine_sb_cont cur.sb bdev (some cur) false) := by
  refine ⟨?_, ?_, ?_⟩
  · intro hseq hcfg
    simp [raid_bdev_examine_sb, hbs, huuid, hfind, hseq, hcfg]
  · intro hseq hcfg
    simp [raid_bdev_examine_sb, hbs, huuid, hfind, hseq, hcfg]
  · intro hseq
    simp [raid_bdev_examine_sb, hbs, huuid, hfind, hseq,
      Nat.lt_asymm hseq]

/-- Witness for C4: a newer superblock (seq 9 over 5) found while the
in-memory device is already ONLINE is ignored. -/
theorem examine_sb_seq_arbitration_witness :
    raid_bdev_examine_sb
      { seq_number := 9, uuid := 7, block_size := 512,
        base_bdevs := [⟨21, 0, SbBaseState.CONFIGURED⟩] }
      { uuid := 21, blocklen := 512 }
      [{ uuid := 7, state := RaidState.ONLINE,
         sb := { seq_number := 5, uuid := 7, block_size := 512,
                 base_bdevs := [⟨21, 0, SbBaseState.CONFIGURED⟩] },
         base_uuids := [21] }] = ExamineAction.ignoreNewer :=
  (examine_sb_seq_arbitration
    { seq_number := 9, uuid := 7, block_size := 512,
      base_bdevs := [⟨21, 0, SbBaseState.CONFIGURED⟩] }
    { uuid := 21, blocklen := 512 }
    [{ uuid := 7, state := RaidState.ONLINE,
       sb := { seq_number := 5, uuid := 7, block_size := 512,
               base_bdevs := [⟨21, 0, SbBaseState.CONFIGURED⟩] },
       base_uuids := [21] }]
    { uuid := 7, state := RaidState.ONLINE,
      sb := { seq_number := 5, uuid := 7, block_size := 512,
              base_bdevs := [⟨21, 0, SbBaseState.CONFIGURED⟩] },
      base_uuids := [21] }
    rfl (by decide) (by decide)).2.1 (by decide) (by decide)

/-! ### Array creation validation (`_raid_bdev_create`) -/

inductive RaidLevel where
  | RAID0
  | RAID1
  | RAID5F
  | CONCAT
deriving DecidableEq, Repr

/-- Constraint kind, from `enum raid_bdev_base_bdevs_constraint_type`. -/
inductive ConstraintType where
  | CONSTRAINT_UNSET
  | CONSTRAINT_MAX_BASE_BDEVS_REMOVED
  | CONSTRAINT_MIN_BASE_BDEVS_OPERATIONAL
deriving DecidableEq, Repr

/-- The level module constraint `{type, value}`; `value` is a `uint8_t`. -/
structure ModuleConstraint where
  type : ConstraintType
  value : Nat
deriving DecidableEq, Repr

/-- The level module fields read by `_raid_bdev_create`. -/
structure RaidBdevModule where
  level : RaidLevel
  base_bdevs_min : Nat
  base_bdevs_constraint : ModuleConstraint
deriving DecidableEq, Repr

/-- Modelled from the spec: `spdk_u32_is_pow2` lives in
`include/spdk/util.h`, which is not among the sources here; per the spec,
for non-mirror levels `strip_size_kb` must be "a positive power of two"
(`strip_size_kb` is a `uint32_t`, so exponents below 32 suffice). -/
def spdk_u32_is_pow2 (x : Nat) : Bool :=
  (List.range 32).any (fun k => x == 2 ^ k)

def EINVAL : Int := 22
def EEXIST : Int := 17

/-- The `min_operational == 0 || min_operational > num_base_bdevs` range
check of `_raid_bdev_create` (bdev_raid.c:1080-1084). -/
def raid_bdev_min_operational_check (N min_op : Nat) : Except Int Nat :=
  if min_op = 0 ∨ min_op > N then Except.error (-EINVAL) else Except.ok min_op

/-- The constraint switch of `_raid_bdev_create` (bdev_raid.c:1057-1084)
computing `min_operational` as a `uint8_t` (wrap-around explicit), then the
range check. -/
def raid_bdev_min_operational_stage (N : Nat) (m : RaidBdevModule) : Except Int Nat :=
  match m.base_bdevs_constraint.type with
  | ConstraintType.CONSTRAINT_MAX_BASE_BDEVS_REMOVED =>
    raid_bdev_min_operational_check N
      ((N + 256 - m.base_bdevs_constraint.value % 256) % 256)
  | ConstraintType.CONSTRAINT_MIN_BASE_BDEVS_OPERATIONAL =>
    raid_bdev_min_operational_check N (m.base_bdevs_constraint.value % 256)
  | ConstraintType.CONSTRAINT_UNSET =>
    if m.base_bdevs_constraint.value ≠ 0 then Except.error (-EINVAL)
    else raid_bdev_min_operational_check N N

/-- The validation prefix of `_raid_bdev_create` (bdev_raid.c:1013-1084):
name length (`strnlen(name, RAID_BDEV_SB_NAME_SIZE) == RAID_BDEV_SB_NAME_SIZE`
is `name_len ≥ sb_name_size`), duplicate name, strip size by level, level
module lookup, minimum member count, and the constraint processing. -/
def _raid_bdev_create_validate (name_len sb_name_size : Nat) (dup : Bool)
    (strip_size N : Nat) (level : RaidLevel)
    (module? : Option RaidBdevModule) : Except Int Nat :=
  if name_len ≥ sb_name_size then Except.error (-EINVAL)
  else if dup then Except.error (-EEXIST)
  else if level = RaidLevel.RAID1 ∧ strip_size ≠ 0 then Except.error (-EINVAL)
  else if level ≠ RaidLevel.RAID1 ∧ spdk_u32_is_pow2 strip_size = false then
    Except.error (-EINVAL)
  else
    match module? with
    | none => Except.error (-EINVAL)
    | some m =>
      if N < m.base_bdevs_min then Except.error (-EINVAL)
      else raid_bdev_min_operational_stage N m

/-- With name and duplicate checks passing and a valid strip size for the
level, `_raid_bdev_create` validation reaches the level-module stage. -/
theorem create_validate_strip_pass (name_len sb_name_size : Nat) (dup : Bool)
    (strip_size N : Nat) (level : RaidLevel) (module? : Option RaidBdevModule)
    (hname : name_len < sb_name_size) (hdup : dup = false)
    (hstrip : (level = RaidLevel.RAID1 ∧ strip_size = 0) ∨
      (level ≠ RaidLevel.RAID1 ∧ spdk_u32_is_pow2 strip_size = true)) :
    _raid_bdev_create_validate name_len sb_name_size dup strip_size N level module? =
      (match module? with
       | none => Except.error (-EINVAL)
       | some m =>
         if N < m.base_bdevs_min then Except.error (-EINVAL)
         else raid_bdev_min_operational_stage N m) := by
  have hname2 : ¬(name_len ≥ sb_name_size) := by omega
  rcases hstrip with ⟨h1, h2⟩ | ⟨h1, h2⟩
  · simp [_raid_bdev_create_validate, hname2, hdup, h1, h2]
  · simp [_raid_bdev_create_validate, hname2, hdup, h1, h2]

/-- Claim C9.  With a valid, non-duplicate name: creation fails with
InvalidArgument when the level is the mirror level (RAID1) and
`strip_size_kb` is nonzero, and when the level is not the mirror level and
`strip_size_kb` is not a positive power of two — in particular when it is
zero; when neither failure condition holds, strip-size validation passes
and validation proceeds to the level-module and constraint stages. -/
theorem create_strip_size_validation (name_len sb_name_size : Nat) (dup : Bool)
    (strip_size N : Nat) (level : RaidLevel) (module? : Option RaidBdevModule)
    (hname : name_len < sb_name_size) (hdup : dup = false) :
    (level = RaidLevel.RAID1 ∧ strip_size ≠ 0 →
      _raid_bdev_create_validate name_len sb_name_size dup strip_size N level module? =
        Except.error (-EINVAL)) ∧
    (level ≠ RaidLevel.RAID1 ∧ spdk_u32_is_pow2 strip_size = false →
      _raid_bdev_create_validate name_len sb_name_size dup strip_size N level module? =
        Except.error (-EINVAL)) ∧
    (level ≠ RaidLevel.RAID1 ∧ strip_size = 0 →
      _raid_bdev_create_validate name_len sb_name_size dup strip_size N level module? =
        Except.error (-EINVAL)) ∧
    ((level = RaidLevel.RAID1 ∧ strip_size = 0) ∨
     (level ≠ RaidLevel.RAID1 ∧ spdk_u32_is_pow2 strip_size = true) →
      _raid_bdev_create_validate name_len sb_name_size dup strip_size N level module? =
        (match module? with
         | none => Except.error (-EINVAL)
         | some m =>
           if N < m.base_bdevs_min then Except.error (-EINVAL)
           else raid_bdev_min_operational_stage N m)) := by
  have hname' : ¬(name_len ≥ sb_name_size) := by omega
  refine ⟨?_, ?_, ?_, ?_⟩
  · intro ⟨h1, h2⟩
    simp [_raid_bdev_create_validate, hname', hdup, h1, h2]
  · intro ⟨h1, h2⟩
    simp [_raid_bdev_create_validate, hname', hdup, h1, h2]
  · intro ⟨h1, h2⟩
    have hz : spdk_u32_is_pow2 0 = false := by decide
    simp [_raid_bdev_create_validate, hname', hdup, h1, h2, hz]
  · intro h
    exact create_validate_strip_pass name_len sb_name_size dup strip_size N level
      module? hname hdup h

/-- Witness for C9: mirror level with a nonzero strip size is rejected. -/
theorem create_strip_size_validation_witness :
    _raid_bdev_create_validate 4 64 false 64 2 RaidLevel.RAID1 none =
      Except.error (-EINVAL) :=
  (create_strip_size_validation 4 64 false 64 2 RaidLevel.RAID1 none
    (by decide) rfl).1 (by decide)

/-- Claim C5.  With name, duplicate and strip-size checks passing and
`num_base_bdevs ≥ base_bdevs_min > 0` (both `uint8_t`):
MAX_BASE_BDEVS_REMOVED yields `min_operational = N - value` and succeeds
exactly when `value < N` (when `value ≥ N` the `uint8_t` result is 0 or
wraps above `N` and the range check rejects it);
MIN_BASE_BDEVS_OPERATIONAL yields `min_operational = value` and succeeds
exactly when `0 < value ≤ N`; UNSET with a nonzero value fails with
InvalidArgument, and with value zero yields `min_operational = N`. -/
theorem create_min_operational_spec (name_len sb_name_size : Nat) (dup : Bool)
    (strip_size N : Nat) (level : RaidLevel) (m : RaidBdevModule)
    (hname : name_len < sb_name_size) (hdup : dup = false)
    (hstrip : (level = RaidLevel.RAID1 ∧ strip_size = 0) ∨
      (level ≠ RaidLevel.RAID1 ∧ spdk_u32_is_pow2 strip_size = true))
    (hmin : 0 < m.base_bdevs_min) (hNmin : m.base_bdevs_min ≤ N)
    (hN8 : N < 256) (hv8 : m.base_bdevs_constraint.value < 256) :
    (m.base_bdevs_constraint.type = ConstraintType.CONSTRAINT_MAX_BASE_BDEVS_REMOVED →
      (m.base_bdevs_constraint.value < N →
        _raid_bdev_create_validate name_len sb_name_size dup strip_size N level (some m) =
          Except.ok (N - m.base_bdevs_constraint.value)) ∧
      (N ≤ m.base_bdevs_constraint.value →
        _raid_bdev_create_validate name_len sb_name_size dup strip_size N level (some m) =
          Except.error (-EINVAL))) ∧
    (m.base_bdevs_constraint.type = ConstraintType.CONSTRAINT_MIN_BASE_BDEVS_OPERATIONAL →
      (0 < m.base_bdevs_constraint.value ∧ m.base_bdevs_constraint.value ≤ N →
        _raid_bdev_create_validate name_len sb_name_size dup strip_size N level (some m) =
          Except.ok m.base_bdevs_constraint.value) ∧
      (m.base_bdevs_constraint.value = 0 ∨ N < m.base_bdevs_constraint.value →
        _raid_bdev_create_validate name_len sb_name_size dup strip_size N level (some m) =
          Except.error (-EINVAL))) ∧
    (m.base_bdevs_constraint.type = ConstraintType.CONSTRAINT_UNSET →
      (m.base_bdevs_constraint.value ≠ 0 →
        _raid_bdev_create_validate name_len sb_name_size dup strip_size N level (some m) =
          Except.error (-EINVAL)) ∧
      (m.base_bdevs_constraint.value = 0 →
        _raid_bdev_create_validate name_len sb_name_size dup strip_size N level (some m) =
          Except.ok N)) := by
  have hpass := create_validate_strip_pass name_len sb_name_size dup strip_size N level
    (some m) hname hdup hstrip
  have hNlt : ¬(N < m.base_bdevs_min) := by omega
  have hstage : _raid_bdev_create_validate name_len sb_name_size dup strip_size N level
      (some m) = raid_bdev_min_operational_stage N m := by
    rw [hpass]
    simp [hNlt]
  have hv' : m.base_bdevs_constraint.value % 256 = m.base_bdevs_constraint.value :=
    Nat.mod_eq_of_lt hv8
  rw [hstage]
  refine ⟨?_, ?_, ?_⟩
  · intro htype
    constructor
    · intro hlt
      have hwrap : (N + 256 - m.base_bdevs_constraint.value % 256) % 256 =
          N - m.base_bdevs_constraint.value := by
        rw [hv']
        have h1 : N + 256 - m.base_bdevs_constraint.value =
            (N - m.base_bdevs_constraint.value) + 256 := by omega
        rw [h1, Nat.add_mod_right]
        exact Nat.mod_eq_of_lt (by omega)
      simp only [raid_bdev_min_operational_stage, htype, hwrap,
        raid_bdev_min_operational_check]
      rw [if_neg (by omega)]
    · intro hge
      by_cases heq : m.base_bdevs_constraint.value = N
      · have hwrap : (N + 256 - m.base_bdevs_constraint.value % 256) % 256 = 0 := by
          rw [hv', heq]
          simp
        simp [raid_bdev_min_operational_stage, htype, hwrap,
          raid_bdev_min_operational_check]
      · have hgt : N < m.base_bdevs_constraint.value := by omega
        have hwrap : (N + 256 - m.base_bdevs_constraint.value % 256) % 256 =
            N + 256 - m.base_bdevs_constraint.value := by
          rw [hv']
          exact Nat.mod_eq_of_lt (by omega)
        simp only [raid_bdev_min_operational_stage, htype, hwrap,
          raid_bdev_min_operational_check]
        rw [if_pos (Or.inr (by omega))]
  · intro htype
    constructor
    · intro ⟨h1, h2⟩
      simp only [raid_bdev_min_operational_stage, htype, hv',
        raid_bdev_min_operational_check]
      rw [if_neg (by omega)]
    · intro h
      simp only [raid_bdev_min_operational_stage, htype, hv',
        raid_bdev_min_operational_check]
      rw [if_pos (by omega)]
  · intro htype
    constructor
    · intro h
      simp [raid_bdev_min_operational_stage, htype, h]
    · intro h
      simp only [raid_bdev_min_operational_stage, htype, h,
        raid_bdev_min_operational_check]
      rw [if_neg (by simp), if_neg (by omega)]

/-- Witness for C5: the UNSET constraint with value 0 gives
`min_operational = N`. -/
theorem create_min_operational_spec_witness :
    _raid_bdev_create_validate 4 64 false 0 2 RaidLevel.RAID1
      (some { level := RaidLevel.RAID1, base_bdevs_min := 1,
              base_bdevs_constraint := ⟨ConstraintType.CONSTRAINT_UNSET, 0⟩ }) =
      Except.ok 2 :=
  ((create_min_operational_spec 4 64 false 0 2 RaidLevel.RAID1
    { level := RaidLevel.RAID1, base_bdevs_min := 1,
      base_bdevs_constraint := ⟨ConstraintType.CONSTRAINT_UNSET, 0⟩ }
    (by decide) rfl (Or.inl ⟨rfl, rfl⟩) (by decide) (by decide)
    (by decide) (by decide)).2.2 rfl).2 rfl

end SpdkRaid
